import Mathlib

/-
Verification development for the SRS scheduling core of master-english-srs.

The Go source is embedded shallowly:
  * machine integers and timestamps become `Int` (instants are measured in
    days, so "start of local day + n days" becomes `d + n`);
  * a learner's timezone string is embedded as the outcome of resolving it
    with `time.LoadLocation` for the current instant: `empty` (no timezone
    configured), `known d` (resolution succeeded and the start of the
    learner's current local day is the instant `d`), or `unknown`
    (`LoadLocation` fails);
  * database rows become Lean structures, SQL UPDATE statements become
    record updates writing exactly the columns of their SET lists;
  * fallible external collaborators (OneNote sync, record creation inside a
    transaction) become explicit result parameters / oracles;
  * logging (zap) has no observable effect and is dropped.
-/

namespace MESrs

/-- Recall grades of internal/service/srs/algorithm.go. `ConvertGradeToStatus`
is the only producer of values of the Go string type `Grade`, so the four
constants are embedded as a closed inductive type. -/
inductive Grade
  | forgot
  | easy
  | normal
  | hard
deriving DecidableEq

/-- Embeds `defaultIntervals = []int{1, 3, 7, 14, 30, 90, 180}`. -/
def defaultIntervals : List Int := [1, 3, 7, 14, 30, 90, 180]

/-- Outcome of resolving a learner's timezone string for the current
instant (`utils.StartOfTodayInTimezone` = `time.LoadLocation` plus start-of-day
arithmetic): `known d` carries the start of the learner's current local day. -/
inductive Timezone
  | empty
  | known (startOfDay : Int)
  | unknown
deriving DecidableEq

/-- Start-of-today instant used by the srs helpers: a non-empty resolvable
timezone yields its own local-day start; an empty timezone or a failed
resolution (warned about in the source) falls back to `utils.StartOfTodayUTC`,
embedded as the parameter `utcDay`. This is the shared shape of the
`if timezone != "" { ... } else { StartOfTodayUTC }` prologue in
internal/service/srs/algorithm.go. -/
def startOfDayOf (tz : Timezone) (utcDay : Int) : Int :=
  match tz with
  | .known d => d
  | .empty => utcDay
  | .unknown => utcDay

/-- Embeds `calculateInterval` of internal/service/srs/algorithm.go: the next
review instant is the start of the learner's current local day plus the chosen
interval in days, returned together with that interval. -/
def calculateInterval (interval : Int) (tz : Timezone) (utcDay : Int) : Int × Int :=
  (startOfDayOf tz utcDay + interval, interval)

/-- Embeds `CalculateNextReviewDate` of internal/service/srs/algorithm.go.
`slices.Index` (first index of the value, -1 when absent) is embedded as
`List.findIdx?`; the -1 branch is the `none` branch. The Go `switch` has no
case left for other grades (the trailing `return` after the switch is
unreachable for the four grade constants, which are the only values
`ConvertGradeToStatus` produces). -/
def calculateNextReviewDate (currentIntervalDays : Int) (success : Grade)
    (tz : Timezone) (utcDay : Int) : Int × Int :=
  match defaultIntervals.findIdx? (· == currentIntervalDays) with
  | none => calculateInterval (defaultIntervals.getD 0 0) tz utcDay
  | some interval =>
    match success with
    | .forgot => calculateInterval (defaultIntervals.getD 0 0) tz utcDay
    | .easy | .normal =>
      if interval = defaultIntervals.length - 1 then
        calculateInterval (defaultIntervals.getD interval 0) tz utcDay
      else
        calculateInterval (defaultIntervals.getD (interval + 1) 0) tz utcDay
    | .hard =>
      if interval = 0 then
        calculateInterval (defaultIntervals.getD interval 0) tz utcDay
      else
        calculateInterval (defaultIntervals.getD (interval - 1) 0) tz utcDay

/-- Embeds `GetInitialReviewDate`: today's local-day start with interval 0
(reading mode), with the same UTC fallback as `calculateInterval`. -/
def getInitialReviewDate (tz : Timezone) (utcDay : Int) : Int × Int :=
  (startOfDayOf tz utcDay, 0)

/-- Embeds `GetNextDayReviewDate`: tomorrow's local-day start with interval 1. -/
def getNextDayReviewDate (tz : Timezone) (utcDay : Int) : Int × Int :=
  (startOfDayOf tz utcDay + 1, 1)

/-- Embeds `GetNextDayReadingMode`: tomorrow's local-day start with interval 0. -/
def getNextDayReadingMode (tz : Timezone) (utcDay : Int) : Int × Int :=
  (startOfDayOf tz utcDay + 1, 0)

/-- Embeds `ConvertGradeToStatus` of internal/service/srs/algorithm.go. -/
def convertGradeToStatus (grade : Int) : Grade :=
  if grade > 80 then .easy
  else if grade > 60 then .normal
  else if grade ≥ 40 then .hard
  else .forgot

/-- Embeds `CalculatePagesToAdd` of internal/service/srs/algorithm.go. The
process-wide random source is embedded as the explicit `draw` parameter, the
value `rand.Float32()` would return, modelled as a rational in [0, 1); the
comparison threshold 0.6 becomes the exact rational 3/5. -/
def calculatePagesToAdd (draw : ℚ) (maxPagesPerDay : Nat) : Nat :=
  match maxPagesPerDay with
  | 0 => 1
  | 1 => 1
  | 2 => 1
  | 3 => if draw < 3/5 then 1 else 2
  | 4 => 2
  | n => n / 2

/-- Grade dispatch of `UpdateReviewProgress` in the service layer: a record in
reading mode (IntervalDays == 0) moves to the next local day in interval 1 on
normal/easy and stays in reading mode on hard/forgot; otherwise the standard
ladder transition applies. -/
def nextReviewOf (intervalDays : Int) (g : Grade) (tz : Timezone) (utcDay : Int) :
    Int × Int :=
  if intervalDays = 0 then
    if g = .normal ∨ g = .easy then getNextDayReviewDate tz utcDay
    else getNextDayReadingMode tz utcDay
  else calculateNextReviewDate intervalDays g tz utcDay

/-- Embeds the models.UserProgress row (one per learner/item pair). Timestamps
are `Int` instants; the `History` slice lives in its own append-only table and
is not part of the row the UPDATE statements touch. -/
structure UserProgress where
  userID : Int
  pageID : String
  level : String
  repetitionCount : Int
  lastReviewDate : Int
  nextReviewDate : Int
  intervalDays : Int
  successRate : Int
  reviewedToday : Bool
  passed : Bool
deriving DecidableEq

/-- Embeds the repository `UpdateProgress` UPDATE statement: it SETs exactly
the columns level, repetition_count, last_review_date, next_review_date,
interval_days, reviewed_today and passed for the addressed row; every other
column (in particular success_rate) is untouched. -/
def updateProgress (r : UserProgress) (level : String) (repetitionCount : Int)
    (lastReviewDate nextReviewDate : Int) (intervalDays : Int)
    (reviewedToday passed : Bool) : UserProgress :=
  { r with
    level := level
    repetitionCount := repetitionCount
    lastReviewDate := lastReviewDate
    nextReviewDate := nextReviewDate
    intervalDays := intervalDays
    reviewedToday := reviewedToday
    passed := passed }

/-- Embeds the `UserProgress` mutation performed by the service
`UpdateReviewProgress`: convert the score, compute the next review date and
interval (reading-mode dispatch on IntervalDays == 0), recompute `passed`
from the pre-transition interval, and write the row back through the
repository `UpdateProgress` with the previously read level and repetition
count, `reviewedToday = true` and `lastReviewDate = now`. -/
def updateReviewProgress (r : UserProgress) (score : Int) (tz : Timezone)
    (utcDay now : Int) : UserProgress :=
  let status := convertGradeToStatus score
  let next := nextReviewOf r.intervalDays status tz utcDay
  let passed : Bool :=
    if r.intervalDays = 180 ∧ (status = .easy ∨ status = .normal) then true
    else false
  updateProgress r r.level r.repetitionCount now next.1 next.2 true passed

/-- Embeds the `UserProgress` literal created for each selected page inside
the `addPagesToLearning` transaction: reading mode via `GetInitialReviewDate`
(interval 0, due at the start of the current local day), zero counters,
`reviewedToday = false`, `passed = false`. -/
def createdProgress (userID : Int) (pageID level : String) (tz : Timezone)
    (utcDay now : Int) : UserProgress :=
  let init := getInitialReviewDate tz utcDay
  { userID := userID
    pageID := pageID
    level := level
    repetitionCount := 0
    lastReviewDate := now
    nextReviewDate := init.1
    intervalDays := init.2
    successRate := 0
    reviewedToday := false
    passed := false }

/-- Embeds the per-row effect of the repository
`ResetIntervalForPagesDueInMonth` UPDATE: rows with
`next_review_date <= monthFromNow AND passed = FALSE` get
`interval_days = 1` and `next_review_date = tomorrow`; other rows are
untouched. -/
def resetIntervalRollback (r : UserProgress) (tomorrow monthFromNow : Int) :
    UserProgress :=
  if r.nextReviewDate ≤ monthFromNow ∧ r.passed = false then
    { r with intervalDays := 1, nextReviewDate := tomorrow }
  else r

/-- States of a progress row reachable through the core's writers:
replenishment creation, review submission, and the inactivity interval
rollback. -/
inductive ReachableProgress : UserProgress → Prop
  | created (userID : Int) (pageID level : String) (tz : Timezone)
      (utcDay now : Int) :
      ReachableProgress (createdProgress userID pageID level tz utcDay now)
  | review {r : UserProgress} (score : Int) (tz : Timezone) (utcDay now : Int) :
      ReachableProgress r →
      ReachableProgress (updateReviewProgress r score tz utcDay now)
  | rollback {r : UserProgress} (tomorrow monthFromNow : Int) :
      ReachableProgress r →
      ReachableProgress (resetIntervalRollback r tomorrow monthFromNow)

/-- Embeds an onenote.Page catalog entry: the scheduler reads only its id and
display title. -/
structure Page where
  id : String
  title : String
deriving DecidableEq

/-- Embeds `hasPageNumber`: after TrimSpace the title must be non-empty and
the regular expression for one or more leading decimal digits must match,
which holds exactly when the first character is an ASCII digit. -/
def hasPageNumber (title : String) : Bool :=
  match title.trim.data with
  | [] => false
  | c :: _ => c.isDigit

/-- Numeric value of a digit string, as `strconv.Atoi` computes it. -/
def digitsToNat (ds : List Char) : Nat :=
  ds.foldl (fun n c => n * 10 + (c.toNat - '0'.toNat)) 0

/-- Embeds `extractPageNumber`: 0 for a blank title, the parsed leading
decimal number otherwise, and the sentinel 999999 when no leading digits
exist or `strconv.Atoi` overflows a 64-bit int. -/
def extractPageNumber (title : String) : Nat :=
  let t := title.trim
  if t = "" then 0
  else
    let ds := t.data.takeWhile Char.isDigit
    if ds = [] then 999999
    else
      let n := digitsToNat ds
      if n ≤ 9223372036854775807 then n else 999999

/-- Embeds building the Go map from page id to page over the fetched catalog
followed by a map lookup: with duplicate ids the later entry wins, exactly as
repeated map assignment does. -/
def lookupPage (pages : List Page) (pid : String) : Option Page :=
  pages.foldl (fun acc p => if p.id = pid then some p else acc) none

/-- Embeds the repository `GetDuePagesToday` query: rows of the learner with
`next_review_date <= endOfDay AND reviewed_today = FALSE`, ordered by
next_review_date ascending. -/
def repoGetDuePagesToday (rows : List UserProgress) (userID : Int)
    (endOfDay : Int) : List UserProgress :=
  (rows.filter fun p =>
      p.userID == userID && decide (p.nextReviewDate ≤ endOfDay)
        && !p.reviewedToday).mergeSort
    (fun a b => decide (a.nextReviewDate ≤ b.nextReviewDate))

/-- Embeds models.PageWithProgress: a due progress row joined with its
catalog page. The Go value also carries presentation metadata (source tag,
fetch timestamp) with no bearing on contents or order; it is dropped here. -/
structure PageWithProgress where
  page : Page
  progress : UserProgress
deriving DecidableEq

/-- Per-row join step of the service `GetDuePagesToday` loop: drop rows whose
page id is absent from the catalog map, and drop pages whose title contains
the draft marker or lacks a leading page number. -/
def joinWithCatalog (catalog : List Page) (pr : UserProgress) :
    Option PageWithProgress :=
  match lookupPage catalog pr.pageID with
  | none => none
  | some page =>
    if page.title.contains '*' || !hasPageNumber page.title then none
    else some { page := page, progress := pr }

/-- Comparison used by the final `slices.SortFunc` of the service
`GetDuePagesToday`: leading page number ascending, ties by next review date
ascending, as a boolean total preorder. -/
def duePageLe (a b : PageWithProgress) : Bool :=
  decide (extractPageNumber a.page.title < extractPageNumber b.page.title)
    || (extractPageNumber a.page.title == extractPageNumber b.page.title
      && decide (a.progress.nextReviewDate ≤ b.progress.nextReviewDate))

/-- Embeds the service `GetDuePagesToday`: resolve the learner's timezone
(defaulting the empty setting to the string UTC, which resolves); a failed
resolution is returned to the caller as an error. Otherwise query due rows up
to start-of-local-day plus one day, join with the fetched catalog, filter
draft-marked and unnumbered titles, and sort. The catalog fetch itself is an
external collaborator and enters as the `catalog` parameter. -/
def getDuePagesToday (tz : Timezone) (utcDay : Int) (rows : List UserProgress)
    (catalog : List Page) (userID : Int) :
    Except Unit (List PageWithProgress) :=
  match tz with
  | .unknown => .error ()
  | .empty =>
    .ok (((repoGetDuePagesToday rows userID (utcDay + 1)).filterMap
      (joinWithCatalog catalog)).mergeSort duePageLe)
  | .known d =>
    .ok (((repoGetDuePagesToday rows userID (d + 1)).filterMap
      (joinWithCatalog catalog)).mergeSort duePageLe)

/-- Learner account fields the daily cycle reads and writes. Fields of
models.User with no bearing on the embedded operations (username, level,
reminder settings, OAuth material) are omitted; `timezone` is the resolution
outcome of the stored timezone string for the current instant, with `empty`
standing for an unset or empty setting. -/
structure User where
  telegramID : Int
  oneNoteConfigured : Bool
  isPaused : Bool
  timezone : Timezone
  lastCronProcessedAt : Option Int
deriving DecidableEq

/-- Embeds the repository `TryProcessDailyCronForUser` conditional UPDATE:
set `last_cron_processed_at` to now only where the stored value IS NULL or is
older than the start of the learner's local day, and report whether a row was
affected. -/
def tryProcessDailyCronForUser (u : User) (now startOfTodayUTC : Int) :
    User × Bool :=
  match u.lastCronProcessedAt with
  | none => ({ u with lastCronProcessedAt := some now }, true)
  | some t =>
    if t < startOfTodayUTC then ({ u with lastCronProcessedAt := some now }, true)
    else (u, false)

/-- Outcome of the catalog refresh (`syncPagesInternal`) for one learner:
success, an AuthRequiredError, or any other failure. -/
inductive SyncResult
  | ok
  | authRequired
  | otherError
deriving DecidableEq

/-- Side-effecting phases of the per-learner daily cycle, in the order the
coordinator invokes them. -/
inductive CronAction
  | syncPages
  | addPagesToLearning
  | resetReviewedToday
deriving DecidableEq

/-- Embeds one iteration of the per-user loop of the service `RunDailyCron`:
skip learners without OneNote configuration, paused learners, and learners
whose timezone fails to resolve (warned, no error); then attempt the daily
claim, and on success refresh the catalog (an AuthRequiredError abandons this
learner, any other failure is only logged), run `addPagesToLearning` (a
failure abandons this learner before the flag reset), and reset the
reviewed-today flags. Returns the updated account row, the claim outcome, and
the ordered list of phases that were invoked. The sync and replenishment
outcomes are external and enter as the `syncR` and `addOk` oracles. -/
def runDailyCronUser (u : User) (now utcDay : Int) (syncR : SyncResult)
    (addOk : Bool) : User × Bool × List CronAction :=
  if !u.oneNoteConfigured then (u, false, [])
  else if u.isPaused then (u, false, [])
  else
    match u.timezone with
    | .unknown => (u, false, [])
    | tz =>
      let startOfTodayUTC := startOfDayOf tz utcDay
      let claimed := tryProcessDailyCronForUser u now startOfTodayUTC
      if !claimed.2 then (claimed.1, false, [])
      else
        match syncR with
        | .authRequired => (claimed.1, true, [.syncPages])
        | _ =>
          if !addOk then (claimed.1, true, [.syncPages, .addPagesToLearning])
          else
            (claimed.1, true,
              [.syncPages, .addPagesToLearning, .resetReviewedToday])

/-- Embeds the repository `RunInTx` over a pure store: the body runs against
the store; an error rolls the transaction back, leaving the store as it was,
and returns the error; otherwise the new store is committed. -/
def runInTx {σ ε : Type} (s : σ) (fn : σ → Except ε σ) : σ × Option ε :=
  match fn s with
  | .error e => (s, some e)
  | .ok t => (t, none)

/-- Embeds the transaction body of `addPagesToLearning`: create one progress
row per selected page id in order; a failing `CreateProgress` (oracle
`createFails`) aborts the body with its error. -/
def addPagesTxBody (mk : String → UserProgress) (createFails : String → Bool) :
    List String → List UserProgress → Except Unit (List UserProgress)
  | [], s => .ok s
  | pid :: rest, s =>
    if createFails pid then .error ()
    else addPagesTxBody mk createFails rest (s ++ [mk pid])

/-- Embeds the record-creation step of `addPagesToLearning`: the selected ids
are inserted inside a single `RunInTx` transaction. -/
def addPagesToLearningCreate (s : List UserProgress) (sel : List String)
    (mk : String → UserProgress) (createFails : String → Bool) :
    List UserProgress × Option Unit :=
  runInTx s (addPagesTxBody mk createFails sel)

/-- C9: for every integer score the derived recall grade is easy iff
score > 80, normal iff 60 < score <= 80, hard iff 40 <= score <= 60, and
forgot iff score < 40, as `ConvertGradeToStatus` computes it. -/
theorem c9_grade_thresholds (g : Int) :
    (convertGradeToStatus g = .easy ↔ 80 < g) ∧
    (convertGradeToStatus g = .normal ↔ 60 < g ∧ g ≤ 80) ∧
    (convertGradeToStatus g = .hard ↔ 40 ≤ g ∧ g ≤ 60) ∧
    (convertGradeToStatus g = .forgot ↔ g < 40) := by
  unfold convertGradeToStatus
  split_ifs with h1 h2 h3 <;> refine ⟨?_, ?_, ?_, ?_⟩ <;> simp <;> omega

/-- C7: `CalculatePagesToAdd` returns 1 for capacities 0, 1 and 2; for
capacity 3 it returns 1 exactly when the random draw is below 0.6 and 2
otherwise (so 1 with probability 0.6 and 2 with probability 0.4 under a
uniform draw); 2 for capacity 4; and the integer half, rounded down, for
every larger capacity. -/
theorem c7_pages_to_add (draw : ℚ) (c : Nat) :
    (c ≤ 2 → calculatePagesToAdd draw c = 1) ∧
    (c = 3 → (calculatePagesToAdd draw c = 1 ↔ draw < 3/5)) ∧
    (c = 3 → (calculatePagesToAdd draw c = 1 ∨ calculatePagesToAdd draw c = 2)) ∧
    (c = 4 → calculatePagesToAdd draw c = 2) ∧
    (4 < c → calculatePagesToAdd draw c = c / 2) := by
  refine ⟨?_, ?_, ?_, ?_, ?_⟩
  · intro hc; interval_cases c <;> rfl
  · rintro rfl; unfold calculatePagesToAdd; split_ifs with h <;> simp [h]
  · rintro rfl; unfold calculatePagesToAdd; split_ifs <;> simp
  · rintro rfl; rfl
  · intro hc
    rcases c with _ | _ | _ | _ | _ | n
    · omega
    · omega
    · omega
    · omega
    · omega
    · rfl

/-- Witness for C7 at concrete inputs: capacity 2 yields 1, capacity 3 with
draw 1/2 yields 1, capacity 4 yields 2, capacity 11 yields 5. -/
theorem c7_pages_to_add_witness :
    calculatePagesToAdd (1/2) 2 = 1 ∧ calculatePagesToAdd (1/2) 3 = 1 ∧
    calculatePagesToAdd (1/2) 4 = 2 ∧ calculatePagesToAdd (1/2) 11 = 11 / 2 :=
  ⟨(c7_pages_to_add (1/2) 2).1 (by norm_num),
   ((c7_pages_to_add (1/2) 3).2.1 rfl).mpr (by norm_num),
   (c7_pages_to_add (1/2) 4).2.2.2.1 rfl,
   (c7_pages_to_add (1/2) 11).2.2.2.2 (by norm_num)⟩

/-- C10: a review submission writes the previously read repetition count (and
level) back unchanged, leaves every other stored field except the review
bookkeeping alone, and changes only lastReviewDate, nextReviewDate,
intervalDays, reviewedToday (set to true) and passed. -/
theorem c10_review_frame (r : UserProgress) (score : Int) (tz : Timezone)
    (utcDay now : Int) :
    (updateReviewProgress r score tz utcDay now).repetitionCount =
        r.repetitionCount ∧
    (updateReviewProgress r score tz utcDay now).level = r.level ∧
    (updateReviewProgress r score tz utcDay now).successRate = r.successRate ∧
    (updateReviewProgress r score tz utcDay now).userID = r.userID ∧
    (updateReviewProgress r score tz utcDay now).pageID = r.pageID ∧
    (updateReviewProgress r score tz utcDay now).reviewedToday = true ∧
    (updateReviewProgress r score tz utcDay now).lastReviewDate = now ∧
    (updateReviewProgress r score tz utcDay now).nextReviewDate =
      (nextReviewOf r.intervalDays (convertGradeToStatus score) tz utcDay).1 ∧
    (updateReviewProgress r score tz utcDay now).intervalDays =
      (nextReviewOf r.intervalDays (convertGradeToStatus score) tz utcDay).2 :=
  ⟨rfl, rfl, rfl, rfl, rfl, rfl, rfl, rfl, rfl⟩

/-- C2: the embedded transition function realizes the ladder walk. For a
record on ladder position i (interval magnitudes [1, 3, 7, 14, 30, 90, 180]),
forgot resets to the 1-day step, normal and easy advance one position
(capped at the last), hard retreats one position (floored at the first); from
reading mode (interval 0), normal and easy move to the 1-day step due at the
start of the next local day, hard and forgot stay in reading mode due at the
start of the next local day. The due instant is always the start of the local
day `d` plus the resulting interval (plus one day for the reading-mode
exits). -/
theorem c2_ladder_transitions (d utcDay : Int) (i : Fin 7) :
    nextReviewOf (defaultIntervals.getD i.1 0) .forgot (.known d) utcDay =
      (d + 1, 1) ∧
    nextReviewOf (defaultIntervals.getD i.1 0) .normal (.known d) utcDay =
      (d + defaultIntervals.getD (min (i.1 + 1) 6) 0,
       defaultIntervals.getD (min (i.1 + 1) 6) 0) ∧
    nextReviewOf (defaultIntervals.getD i.1 0) .easy (.known d) utcDay =
      (d + defaultIntervals.getD (min (i.1 + 1) 6) 0,
       defaultIntervals.getD (min (i.1 + 1) 6) 0) ∧
    nextReviewOf (defaultIntervals.getD i.1 0) .hard (.known d) utcDay =
      (d + defaultIntervals.getD (i.1 - 1) 0,
       defaultIntervals.getD (i.1 - 1) 0) ∧
    nextReviewOf 0 .normal (.known d) utcDay = (d + 1, 1) ∧
    nextReviewOf 0 .easy (.known d) utcDay = (d + 1, 1) ∧
    nextReviewOf 0 .hard (.known d) utcDay = (d + 1, 0) ∧
    nextReviewOf 0 .forgot (.known d) utcDay = (d + 1, 0) := by
  fin_cases i <;> exact ⟨rfl, rfl, rfl, rfl, rfl, rfl, rfl, rfl⟩

/-- Unfolding of the `addPagesToLearning` transaction body: it fails exactly
when some selected creation fails, and otherwise appends one created row per
selected page id, in order. -/
theorem addPagesTxBody_eq (mk : String → UserProgress)
    (createFails : String → Bool) (sel : List String)
    (s : List UserProgress) :
    addPagesTxBody mk createFails sel s =
      if sel.any createFails then .error () else .ok (s ++ sel.map mk) := by
  induction sel generalizing s with
  | nil => simp [addPagesTxBody]
  | cons pid rest ih =>
    unfold addPagesTxBody
    by_cases h : createFails pid
    · simp [h]
    · simp [h, ih, List.append_assoc]

/-- C6: replenishment record creation is all-or-nothing. If any selected
creation fails, the transaction rolls back and the store is unchanged (the
error is surfaced); otherwise every selected record is persisted. -/
theorem c6_replenish_atomic (s : List UserProgress) (sel : List String)
    (mk : String → UserProgress) (createFails : String → Bool) :
    addPagesToLearningCreate s sel mk createFails =
      if sel.any createFails then (s, some ())
      else (s ++ sel.map mk, none) := by
  unfold addPagesToLearningCreate runInTx
  rw [addPagesTxBody_eq]
  by_cases h : sel.any createFails <;> simp [h]

/-- Interval component of `calculateInterval` is its argument, for any
timezone. -/
theorem snd_calculateInterval (k : Int) (tz : Timezone) (utcDay : Int) :
    (calculateInterval k tz utcDay).2 = k := rfl

/-- Interval component of the ladder transition does not depend on the
timezone or the UTC day: only the due instant does. -/
theorem snd_calculateNextReviewDate (iv : Int) (g : Grade)
    (tz tz2 : Timezone) (u u2 : Int) :
    (calculateNextReviewDate iv g tz u).2 =
      (calculateNextReviewDate iv g tz2 u2).2 := by
  unfold calculateNextReviewDate
  cases List.findIdx? (· == iv) defaultIntervals with
  | none => rfl
  | some i =>
    cases g
    case forgot => rfl
    case easy =>
      by_cases h : i = defaultIntervals.length - 1 <;>
        simp [h, snd_calculateInterval]
    case normal =>
      by_cases h : i = defaultIntervals.length - 1 <;>
        simp [h, snd_calculateInterval]
    case hard =>
      by_cases h : i = 0 <;> simp [h, snd_calculateInterval]

/-- Interval component of the full review transition does not depend on the
timezone or the UTC day. -/
theorem snd_nextReviewOf (iv : Int) (g : Grade) (tz tz2 : Timezone)
    (u u2 : Int) :
    (nextReviewOf iv g tz u).2 = (nextReviewOf iv g tz2 u2).2 := by
  unfold nextReviewOf
  by_cases h : iv = 0
  · by_cases hg : g = .normal ∨ g = .easy <;>
      simp [h, hg, getNextDayReviewDate, getNextDayReadingMode]
  · simp only [if_neg h]
    exact snd_calculateNextReviewDate iv g tz tz2 u u2

/-- Closure of the interval set under one review transition: from reading
mode or a ladder step, the next interval is again reading mode or a ladder
step. -/
theorem nextReviewOf_interval_mem (iv : Int) (g : Grade) (tz : Timezone)
    (utcDay : Int) (h : iv = 0 ∨ iv ∈ defaultIntervals) :
    (nextReviewOf iv g tz utcDay).2 = 0 ∨
      (nextReviewOf iv g tz utcDay).2 ∈ defaultIntervals := by
  rw [snd_nextReviewOf iv g tz Timezone.empty utcDay 0]
  rcases h with h | h
  · subst h; cases g <;> decide
  · simp only [defaultIntervals, List.mem_cons, List.not_mem_nil, or_false] at h
    rcases h with h | h | h | h | h | h | h <;> subst h <;> cases g <;> decide

/-- A successful pass of the terminal 180-day step stays at 180 days. -/
theorem nextReviewOf_terminal (g : Grade) (tz : Timezone) (utcDay : Int)
    (hs : g = .easy ∨ g = .normal) :
    (nextReviewOf 180 g tz utcDay).2 = 180 := by
  rcases hs with hs | hs <;> subst hs <;> rfl

/-- C8: in every progress state reachable through the core's writers
(replenishment creation, review submission, interval rollback) the interval
is reading mode (0) or one of the ladder steps 1, 3, 7, 14, 30, 90, 180, and
a record marked passed is at the 180-day step: the only write that sets
passed occurs when the record was at 180 days and the grade was easy or
normal, which keeps it at 180 days. -/
theorem c8_state_invariant (r : UserProgress) (h : ReachableProgress r) :
    (r.intervalDays = 0 ∨ r.intervalDays ∈ defaultIntervals) ∧
    (r.passed = true → r.intervalDays = 180) := by
  induction h with
  | created uid pid lvl tz utcDay now =>
    exact ⟨Or.inl rfl, fun hp => absurd hp (by simp [createdProgress])⟩
  | @review r score tz utcDay now hr ih =>
    constructor
    · exact nextReviewOf_interval_mem _ (convertGradeToStatus score) tz utcDay
        ih.1
    · intro hp
      by_cases hc : r.intervalDays = 180 ∧
          (convertGradeToStatus score = .easy ∨
            convertGradeToStatus score = .normal)
      · show (nextReviewOf r.intervalDays (convertGradeToStatus score) tz
            utcDay).2 = 180
        rw [hc.1]
        exact nextReviewOf_terminal (convertGradeToStatus score) tz utcDay hc.2
      · exfalso
        have hp2 : (if r.intervalDays = 180 ∧
            (convertGradeToStatus score = .easy ∨
              convertGradeToStatus score = .normal) then true else false) =
              true := hp
        rw [if_neg hc] at hp2
        exact Bool.false_ne_true hp2
  | rollback tomorrow monthFromNow hr ih =>
    unfold resetIntervalRollback
    split
    · next hcond =>
      refine ⟨Or.inr (show (1 : Int) ∈ defaultIntervals by decide),
        fun hp => ?_⟩
      exact absurd hp (by simp [hcond.2])
    · exact ih

/-- Witness for C8: the invariant at a freshly created progress record. -/
theorem c8_state_invariant_witness :
    ((createdProgress 1 "p1" "B2" Timezone.empty 0 0).intervalDays = 0 ∨
      (createdProgress 1 "p1" "B2" Timezone.empty 0 0).intervalDays ∈
        defaultIntervals) ∧
    ((createdProgress 1 "p1" "B2" Timezone.empty 0 0).passed = true →
      (createdProgress 1 "p1" "B2" Timezone.empty 0 0).intervalDays = 180) :=
  c8_state_invariant _ (ReachableProgress.created 1 "p1" "B2" Timezone.empty 0 0)

/-- Characterization of the join step: it yields a value exactly for due rows
whose page is in the catalog map with a non-draft, numbered title. -/
theorem joinWithCatalog_eq_some (catalog : List Page) (pr : UserProgress)
    (x : PageWithProgress) :
    joinWithCatalog catalog pr = some x ↔
      (lookupPage catalog pr.pageID = some x.page ∧
       x.page.title.contains '*' = false ∧
       hasPageNumber x.page.title = true ∧ x.progress = pr) := by
  obtain ⟨xp, xpr⟩ := x
  unfold joinWithCatalog
  cases hl : lookupPage catalog pr.pageID with
  | none => simp
  | some page =>
    dsimp only
    by_cases hf : page.title.contains '*' || !hasPageNumber page.title
    · rw [if_pos hf]
      constructor
      · intro hx; exact absurd hx (by simp)
      · rintro ⟨h1, h2, h3, rfl⟩
        injection h1 with h1
        subst h1
        rw [h2, h3] at hf
        simp at hf
    · rw [if_neg hf]
      simp only [Bool.or_eq_true, Bool.not_eq_true', not_or, Bool.not_eq_true,
        Bool.not_eq_false] at hf
      constructor
      · intro hx
        injection hx with hx
        cases hx
        exact ⟨rfl, hf.1, hf.2, rfl⟩
      · rintro ⟨h1, h2, h3, rfl⟩
        injection h1 with h1
        subst h1
        rfl

/-- Transitivity of the presentation order of the due set. -/
theorem duePageLe_trans (a b c : PageWithProgress) (hab : duePageLe a b = true)
    (hbc : duePageLe b c = true) : duePageLe a c = true := by
  simp only [duePageLe, Bool.or_eq_true, Bool.and_eq_true, decide_eq_true_eq,
    beq_iff_eq] at hab hbc ⊢
  omega

/-- Totality of the presentation order of the due set. -/
theorem duePageLe_total (a b : PageWithProgress) :
    (duePageLe a b || duePageLe b a) = true := by
  simp only [duePageLe, Bool.or_eq_true, Bool.and_eq_true, decide_eq_true_eq,
    beq_iff_eq]
  omega

/-- C5: for a learner whose timezone resolves with local-day start d, the due
set contains exactly the learner's progress rows with
nextReviewDate <= d + 1 and reviewedToday = false whose page id resolves in
the catalog to a title without the draft marker and with a leading ordinal;
and the returned list is ordered by parsed leading ordinal ascending, ties
by nextReviewDate ascending. -/
theorem c5_due_set_selection (d utcDay uid : Int) (rows : List UserProgress)
    (catalog : List Page) :
    ∃ res, getDuePagesToday (.known d) utcDay rows catalog uid = .ok res ∧
      (∀ x, x ∈ res ↔
        (x.progress ∈ rows ∧ x.progress.userID = uid ∧
         x.progress.nextReviewDate ≤ d + 1 ∧
         x.progress.reviewedToday = false ∧
         lookupPage catalog x.progress.pageID = some x.page ∧
         x.page.title.contains '*' = false ∧
         hasPageNumber x.page.title = true)) ∧
      res.Pairwise (fun a b =>
        extractPageNumber a.page.title < extractPageNumber b.page.title ∨
        (extractPageNumber a.page.title = extractPageNumber b.page.title ∧
         a.progress.nextReviewDate ≤ b.progress.nextReviewDate)) := by
  refine ⟨_, rfl, ?_, ?_⟩
  · intro x
    constructor
    · intro hx
      rw [List.mem_mergeSort, List.mem_filterMap] at hx
      obtain ⟨pr, hpr, hj⟩ := hx
      rw [joinWithCatalog_eq_some] at hj
      obtain ⟨hlk, hc, hn, hprx⟩ := hj
      subst hprx
      unfold repoGetDuePagesToday at hpr
      rw [List.mem_mergeSort, List.mem_filter] at hpr
      obtain ⟨hin, hcond⟩ := hpr
      simp only [Bool.and_eq_true, beq_iff_eq, decide_eq_true_eq,
        Bool.not_eq_true'] at hcond
      exact ⟨hin, hcond.1.1, hcond.1.2, hcond.2, hlk, hc, hn⟩
    · rintro ⟨hin, huid, hdue, hrt, hlk, hc, hn⟩
      rw [List.mem_mergeSort, List.mem_filterMap]
      refine ⟨x.progress, ?_, ?_⟩
      · unfold repoGetDuePagesToday
        rw [List.mem_mergeSort, List.mem_filter]
        exact ⟨hin, by simp [huid, hdue, hrt]⟩
      · rw [joinWithCatalog_eq_some]
        exact ⟨hlk, hc, hn, rfl⟩
  · have hs := @List.sorted_mergeSort PageWithProgress duePageLe
      (fun a b c => duePageLe_trans a b c) duePageLe_total
      ((repoGetDuePagesToday rows uid (d + 1)).filterMap
        (joinWithCatalog catalog))
    refine hs.imp ?_
    intro a b hab
    simpa only [duePageLe, Bool.or_eq_true, Bool.and_eq_true,
      decide_eq_true_eq, beq_iff_eq] using hab

/-- C1: the daily claim is idempotent per learner-local day. The conditional
update of last_cron_processed_at succeeds exactly when the stored value is
null or older than the start of the learner's local day d; after any
invocation of the per-learner cycle at an instant now1 of that day
(d <= now1), a second invocation for the same local day fails its claim,
reports false for the learner, and performs none of the cycle's phases. -/
theorem c1_daily_claim_idempotent (u : User) (d now1 now2 utcDay : Int)
    (sr1 sr2 : SyncResult) (a1 a2 : Bool)
    (hconf : u.oneNoteConfigured = true) (hpause : u.isPaused = false)
    (htz : u.timezone = .known d) (hday : d ≤ now1) :
    ((tryProcessDailyCronForUser u now1 d).2 = true ↔
      (u.lastCronProcessedAt = none ∨
        ∃ t, u.lastCronProcessedAt = some t ∧ t < d)) ∧
    (runDailyCronUser (runDailyCronUser u now1 utcDay sr1 a1).1 now2 utcDay
        sr2 a2).2.1 = false ∧
    (runDailyCronUser (runDailyCronUser u now1 utcDay sr1 a1).1 now2 utcDay
        sr2 a2).2.2 = [] := by
  have hn1 : ¬ now1 < d := by omega
  cases hlc : u.lastCronProcessedAt with
  | none =>
    refine ⟨by simp [tryProcessDailyCronForUser, hlc], ?_, ?_⟩ <;>
      cases sr1 <;> cases a1 <;>
        simp [runDailyCronUser, tryProcessDailyCronForUser, startOfDayOf,
          hconf, hpause, htz, hlc, hn1]
  | some t =>
    by_cases ht : t < d
    · refine ⟨by simp [tryProcessDailyCronForUser, hlc, ht], ?_, ?_⟩ <;>
        cases sr1 <;> cases a1 <;>
          simp [runDailyCronUser, tryProcessDailyCronForUser, startOfDayOf,
            hconf, hpause, htz, hlc, ht, hn1]
    · refine ⟨by simp [tryProcessDailyCronForUser, hlc, ht], ?_, ?_⟩ <;>
        simp [runDailyCronUser, tryProcessDailyCronForUser, startOfDayOf,
          hconf, hpause, htz, hlc, ht]

/-- Witness for C1: a learner claimed at instant 105 of a local day starting
at 100 is not processed again by a second invocation at instant 106. -/
theorem c1_daily_claim_idempotent_witness :
    (runDailyCronUser
        (runDailyCronUser ⟨1, true, false, Timezone.known 100, none⟩ 105 0
          SyncResult.ok true).1 106 0 SyncResult.ok true).2.1 = false ∧
    (runDailyCronUser
        (runDailyCronUser ⟨1, true, false, Timezone.known 100, none⟩ 105 0
          SyncResult.ok true).1 106 0 SyncResult.ok true).2.2 = [] :=
  ⟨(c1_daily_claim_idempotent ⟨1, true, false, Timezone.known 100, none⟩ 100
      105 106 0 SyncResult.ok SyncResult.ok true true rfl rfl rfl
      (by norm_num)).2.1,
   (c1_daily_claim_idempotent ⟨1, true, false, Timezone.known 100, none⟩ 100
      105 106 0 SyncResult.ok SyncResult.ok true true rfl rfl rfl
      (by norm_num)).2.2⟩

/-- C3, evaluated at the failing input: for a concrete learner whose claim
succeeds and whose phases all succeed, the per-learner cycle performs the
catalog refresh, then the replenishment planner, then the reviewed-today
reset — not the order of the claim (refresh, reset, replenish), which is
also the order the repository's own documentation of the daily cron
states. -/
theorem c3_divergent_order :
    (runDailyCronUser ⟨1, true, false, Timezone.known 100, none⟩ 105 0
        SyncResult.ok true).2.2 =
      [CronAction.syncPages, CronAction.addPagesToLearning,
        CronAction.resetReviewedToday] ∧
    [CronAction.syncPages, CronAction.addPagesToLearning,
        CronAction.resetReviewedToday] ≠
      [CronAction.syncPages, CronAction.resetReviewedToday,
        CronAction.addPagesToLearning] := by
  exact ⟨by decide, by decide⟩

/-- Actual phase order of the per-learner daily cycle: for every learner
whose daily claim succeeds, the coordinator performs (1) the catalog
refresh — an auth-required failure abandons the learner's cycle, any other
failure is logged and does not abort — then (2) the replenishment planner,
whose failure abandons the cycle before the flag reset, then (3) the reset
of reviewedToday on the learner's progress records. -/
theorem c3_cycle_order (u : User) (d now utcDay : Int) (syncR : SyncResult)
    (addOk : Bool) (hconf : u.oneNoteConfigured = true)
    (hpause : u.isPaused = false) (htz : u.timezone = .known d)
    (hclaim : u.lastCronProcessedAt = none ∨
      ∃ t, u.lastCronProcessedAt = some t ∧ t < d) :
    (runDailyCronUser u now utcDay syncR addOk).2.1 = true ∧
    (syncR = .authRequired →
      (runDailyCronUser u now utcDay syncR addOk).2.2 =
        [CronAction.syncPages]) ∧
    (syncR ≠ .authRequired → addOk = false →
      (runDailyCronUser u now utcDay syncR addOk).2.2 =
        [CronAction.syncPages, CronAction.addPagesToLearning]) ∧
    (syncR ≠ .authRequired → addOk = true →
      (runDailyCronUser u now utcDay syncR addOk).2.2 =
        [CronAction.syncPages, CronAction.addPagesToLearning,
          CronAction.resetReviewedToday]) := by
  rcases hclaim with hlc | ⟨t, hlc, ht⟩ <;> cases syncR <;> cases addOk <;>
    simp_all [runDailyCronUser, tryProcessDailyCronForUser, startOfDayOf]

/-- Concrete instance of the actual phase order: a learner with an eligible
stored claim instant runs all three phases, replenishment before reset. -/
theorem c3_cycle_order_witness :
    (runDailyCronUser ⟨2, true, false, Timezone.known 50, some 10⟩ 55 0
        SyncResult.ok true).2.2 =
      [CronAction.syncPages, CronAction.addPagesToLearning,
        CronAction.resetReviewedToday] :=
  (c3_cycle_order ⟨2, true, false, Timezone.known 50, some 10⟩ 50 55 0
      SyncResult.ok true rfl rfl rfl
      (Or.inr ⟨10, rfl, by norm_num⟩)).2.2.2 (by simp) rfl

/-- Counterexample for C4: due-set selection does surface a failed timezone
resolution as an error to its caller instead of falling back to the
universal zone. -/
theorem c4_counterexample :
    getDuePagesToday Timezone.unknown 0 [] [] 0 = Except.error () := rfl

/-- C4 as amended: next-state computation falls back to the universal zone
on a failed timezone resolution and continues with its normal result (the
result is the one the universal zone gives); the daily cycle warns and skips
that learner for the sweep, surfacing no error and consuming no claim; but
due-set selection surfaces the resolution failure to its caller as an
error. -/
theorem c4_timezone_fallback :
    (∀ (iv : Int) (g : Grade) (utcDay : Int),
      nextReviewOf iv g Timezone.unknown utcDay =
        nextReviewOf iv g Timezone.empty utcDay) ∧
    (∀ (u : User) (now utcDay : Int) (sr : SyncResult) (a : Bool),
      u.timezone = Timezone.unknown →
        runDailyCronUser u now utcDay sr a = (u, false, [])) ∧
    (∀ (utcDay uid : Int) (rows : List UserProgress) (catalog : List Page),
      getDuePagesToday Timezone.unknown utcDay rows catalog uid =
        Except.error ()) := by
  refine ⟨fun iv g utcDay => rfl, ?_, fun utcDay uid rows catalog => rfl⟩
  intro u now utcDay sr a hu
  cases hc : u.oneNoteConfigured <;> cases hp : u.isPaused <;>
    simp [runDailyCronUser, hu, hc, hp]

/-- Witness for C4 as amended: a concrete learner with an unresolvable
timezone is skipped by the daily cycle with no error and no claim. -/
theorem c4_timezone_fallback_witness :
    runDailyCronUser ⟨3, true, false, Timezone.unknown, none⟩ 7 0
        SyncResult.ok true =
      (⟨3, true, false, Timezone.unknown, none⟩, false, []) :=
  c4_timezone_fallback.2.1 ⟨3, true, false, Timezone.unknown, none⟩ 7 0
    SyncResult.ok true rfl

end MESrs
